import Mathlib

/-!
Verification of the Kilo HTTP media server (src/main.py) against its
natural-language specification.

The embedding models:
* filenames and paths as Lean `String`s / lists of `/`-separated segments
  (absolute POSIX paths are segment lists measured from `/`);
* the filesystem as a finite tree of named nodes, where a directory whose
  enumeration raises is modelled explicitly (`Node.badDir`), since the
  Python code distinguishes `PermissionError` from other failures there;
* each HTTP handler as a pure function returning `Except ApiErr _`, with
  the HTTP status of each error recorded by `ApiErr.status`.

Python specifics mirrored here: `str.lower` lowercases each character
(ASCII case; the repository's extension sets are ASCII), `str.split(sep)`
always returns a nonempty list whose last element is the text after the
last separator, `pathlib` keeps `..` segments textually (dropping empty
and `.` segments), `Path.resolve()` eliminates `..` against the real
tree (no symlinks are modelled), and `Path.relative_to` is a purely
lexical segment-wise test. `random.shuffle` is modelled by an explicit
permutation oracle passed to the slideshow renderer.
-/

namespace KiloMedia

/-- Python `s.split(sep)` on a list of characters: always a nonempty list
of fields; an empty input gives `[[]]`, matching `"".split(".") == [""]`. -/
def pySplit (sep : Char) : List Char → List (List Char)
  | [] => [[]]
  | c :: rest =>
    let parts := pySplit sep rest
    if c = sep then [] :: parts
    else
      match parts with
      | [] => [[c]]
      | p :: ps => (c :: p) :: ps

/-- Python `s.lower()` (ASCII case), as used on filenames before
extension extraction. -/
def pyLower (s : String) : String := String.mk (s.data.map Char.toLower)

/-- Python `s.lower().split('.')[-1]`: the lowercased extension used by
`is_media_file`, `get_media_type` and `serve_media`. -/
def pyExt (s : String) : List Char :=
  (pySplit '.' (pyLower s).data).getLastD []

/-- IMG_EXTS from src/main.py line 27, as character lists. -/
def IMG_EXTS : List (List Char) :=
  ["jpg", "jpeg", "png", "gif", "webp"].map String.data

/-- VID_EXTS from src/main.py line 28, as character lists. -/
def VID_EXTS : List (List Char) :=
  ["mp4", "mov", "avi", "mkv", "webm"].map String.data

/-- is_media_file from src/main.py lines 44-52. `media_type` is the
optional filter string; any value other than "images"/"videos"
(including `none`) selects the union branch, exactly as the Python
`else` does. -/
def is_media_file (filename : String) (media_type : Option String) : Bool :=
  let ext := pyExt filename
  match media_type with
  | some "images" => ext ∈ IMG_EXTS
  | some "videos" => ext ∈ VID_EXTS
  | _ => ext ∈ IMG_EXTS ∨ ext ∈ VID_EXTS

/-- get_media_type from src/main.py lines 55-62. -/
def get_media_type (filename : String) : Option String :=
  let ext := pyExt filename
  if ext ∈ IMG_EXTS then some "images"
  else if ext ∈ VID_EXTS then some "videos"
  else none

example : get_media_type "A.JPG" = some "images" := by decide
example : get_media_type "a.b.mp4" = some "videos" := by decide
example : get_media_type "x" = none := by decide
example : get_media_type "" = none := by decide
example : get_media_type ".png" = some "images" := by decide
example : is_media_file "a.png" (some "videos") = false := by decide

/-- Segments of a client path string, as `pathlib` parses it: split on
`/`, dropping empty segments and `.` (`..` is kept textually). -/
def parseSegs (s : String) : List String :=
  ((pySplit '/' s.data).map String.mk).filter (fun t => t ≠ "" && t ≠ ".")

/-- Python `s.startswith(p)` on strings, via the character lists. -/
def strStartsWith (s p : String) : Bool :=
  p.data.isPrefixOf s.data

/-- Python `root / rel` (`pathlib` join): an absolute right operand
replaces the root entirely. The result is the textual segment list of
the joined absolute path (`..` preserved). -/
def pyJoin (root : List String) (rel : String) : List String :=
  if strStartsWith rel "/" then parseSegs rel else root ++ parseSegs rel

/-- The `if path: target = media_root / path else: target = media_root`
pattern shared by the handlers (empty string is falsy in Python). -/
def pyJoinOpt (root : List String) (path : String) : List String :=
  if path = "" then root else pyJoin root path

/-- OS-level resolution of an absolute segment list: each `..` pops one
segment (staying at `/` when empty). This is `Path.resolve()` in a tree
without symlinks, and also what the kernel does when a textual path
containing `..` is opened or stat-ed. -/
def resolveSegs (segs : List String) : List String :=
  segs.foldl (fun acc s => if s = ".." then acc.dropLast else acc ++ [s]) []

/-- Python `str(path)` for an absolute segment list. -/
def pathStr (segs : List String) : String :=
  "/" ++ String.intercalate "/" segs

/-- relative_to_media_root from src/main.py lines 65-72.
`Path.relative_to` succeeds exactly when the root's segments are a
lexical segment-wise starting run of the path's segments (no
normalization), returning the textual remainder; on failure the function
returns `str(path)` unchanged. -/
def relative_to_media_root (root : List String) (p : List String) : String :=
  if root.isPrefixOf p then
    let r := p.drop root.length
    if r = [] then "." else String.intercalate "/" r
  else pathStr p

example : parseSegs "../secret" = ["..", "secret"] := by decide
example : pyJoin ["media"] "../secret" = ["media", "..", "secret"] := by decide
example : resolveSegs ["media", "..", "secret"] = ["secret"] := by decide
example : pathStr [] = "/" := by decide
example : relative_to_media_root ["media"] ["media", "..", "secret", "x"]
    = "../secret/x" := by decide
example : relative_to_media_root ["media"] ["etc", "passwd"] = "/etc/passwd" := by
  decide

/-- Failure raised by a directory enumeration (`Path.iterdir`):
`PermissionError` or any other `OSError`. -/
inductive EnumErr where
  | permission
  | ioError
deriving DecidableEq, Repr

/-- A filesystem node: a regular file, a readable directory with named
children, or a directory whose enumeration raises (`badDir`). The model
has no symlinks. -/
inductive Node where
  | file : Node
  | dir (children : List (String × Node)) : Node
  | badDir (e : EnumErr) : Node

/-- `is_dir` of a node. -/
def isDirNode : Node → Bool
  | Node.file => false
  | Node.dir _ => true
  | Node.badDir _ => true

/-- `is_file` of a node. -/
def isFileNode : Node → Bool
  | Node.file => true
  | _ => false

/-- Whether a node is a directory with failing enumeration. -/
def isBadDir : Node → Bool
  | Node.badDir _ => true
  | _ => false

/-- Walk a resolved (canonical) segment list down the tree; `none` when
the path does not exist (`Path.exists() == False`). -/
def lookup : List String → Node → Option Node
  | [], n => some n
  | s :: rest, Node.dir cs =>
    match cs.lookup s with
    | some c => lookup rest c
    | none => none
  | _ :: _, _ => none

/-- `Path.iterdir`: the children of a readable directory, or the raised
error. On a file, Python raises `NotADirectoryError` (an `OSError`). -/
def enumChildren : Node → Except EnumErr (List (String × Node))
  | Node.dir cs => Except.ok cs
  | Node.badDir e => Except.error e
  | Node.file => Except.error EnumErr.ioError

/-- HTTP-level failure of a handler, by status: 404, 400, 403, 500. -/
inductive ApiErr where
  | notFound
  | badRequest
  | accessDenied
  | serverError
deriving DecidableEq, Repr

/-- The HTTP status code carried by each `HTTPException` in the code. -/
def ApiErr.status : ApiErr → Nat
  | ApiErr.notFound => 404
  | ApiErr.badRequest => 400
  | ApiErr.accessDenied => 403
  | ApiErr.serverError => 500

/-- One element of the `directories` array in `/api/directories`. -/
structure DirEntry where
  name : String
  path : String
  image_count : Nat
  video_count : Nat
deriving DecidableEq, Repr

/-- The JSON body of a successful `/api/directories` response. -/
structure DirListing where
  path : String
  directories : List DirEntry
  image_count : Nat
  video_count : Nat
deriving DecidableEq, Repr

/-- One element of `images` / `videos` in `/api/media`. -/
structure MediaEntry where
  name : String
  path : String
deriving DecidableEq, Repr

/-- The JSON body of a successful `/api/media` response. -/
structure MediaListing where
  path : String
  images : List MediaEntry
  videos : List MediaEntry
deriving DecidableEq, Repr

/-- Lexicographic strict comparison of names by code point, exactly
Python string `<` (and Lean `String.lt` on the character lists). -/
def nameLt : List Char → List Char → Bool
  | _, [] => false
  | [], _ :: _ => true
  | a :: as, b :: bs => a < b || (a = b && nameLt as bs)

/-- Insert a child into an already sorted list, after every
strictly-smaller name and before equal names of later elements, so that
the fold below is a stable ascending sort. -/
def insertByName (x : String × Node) : List (String × Node) → List (String × Node)
  | [] => [x]
  | y :: ys => if nameLt y.1.data x.1.data then y :: insertByName x ys else x :: y :: ys

/-- `sorted(target_dir.iterdir())`: children in ascending name order
(for entries of one parent, `pathlib` comparison is comparison of the
final name component); Python `sorted` is specified by its result, a
stable ascending reordering, which this insertion sort produces. -/
def sortByName : List (String × Node) → List (String × Node)
  | [] => []
  | x :: xs => insertByName x (sortByName xs)

/-- The inner counting loop of list_directories (src/main.py lines
276-281): tally classified files among a subdirectory's direct
children, iterating with two counters. -/
def countMediaAux : Nat × Nat → List (String × Node) → Nat × Nat
  | acc, [] => acc
  | (ic, vc), (name, n) :: rest =>
    if isFileNode n && is_media_file name none then
      if get_media_type name = some "images" then countMediaAux (ic + 1, vc) rest
      else countMediaAux (ic, vc + 1) rest
    else countMediaAux (ic, vc) rest

/-- Counts of image/video files directly inside a child list. -/
def countMedia (cs : List (String × Node)) : Nat × Nat :=
  countMediaAux (0, 0) cs

/-- The `try: ... except PermissionError: pass` block of
list_directories (lines 275-283): a permission failure yields zero
counts, any other enumeration failure propagates. -/
def dirItemCounts (n : Node) : Except EnumErr (Nat × Nat) :=
  match enumChildren n with
  | Except.ok sub => Except.ok (countMedia sub)
  | Except.error EnumErr.permission => Except.ok (0, 0)
  | Except.error e => Except.error e

/-- The main loop of list_directories (lines 270-295) over the sorted
children of the target: builds the `directories` array in iteration
order and tallies the target's own file counts. An uncaught exception
anywhere in the loop aborts it (first error wins). -/
def dirLoop (root targetText : List String) :
    List (String × Node) → Except EnumErr (List DirEntry × Nat × Nat)
  | [] => Except.ok ([], 0, 0)
  | (name, n) :: rest =>
    if isDirNode n then
      match dirItemCounts n with
      | Except.error e => Except.error e
      | Except.ok (sic, svc) =>
        match dirLoop root targetText rest with
        | Except.error e => Except.error e
        | Except.ok (dirs, ic, vc) =>
          Except.ok
            ({ name := name
               path := relative_to_media_root root (targetText ++ [name])
               image_count := sic, video_count := svc } :: dirs, ic, vc)
    else if isFileNode n && is_media_file name none then
      match dirLoop root targetText rest with
      | Except.error e => Except.error e
      | Except.ok (dirs, ic, vc) =>
        if get_media_type name = some "images" then Except.ok (dirs, ic + 1, vc)
        else Except.ok (dirs, ic, vc + 1)
    else dirLoop root targetText rest

/-- list_directories from src/main.py lines 249-307 (`GET
/api/directories`). `root` is the configured media root (absolute
segments), `path` the `path` query parameter (empty string for absent).
The outer `except Exception` turns any uncaught failure into a 500. -/
def list_directories (fs : Node) (root : List String) (path : String) :
    Except ApiErr DirListing :=
  let targetText := pyJoinOpt root path
  match lookup (resolveSegs targetText) fs with
  | none => Except.error ApiErr.notFound
  | some target =>
    if isDirNode target then
      match enumChildren target with
      | Except.error _ => Except.error ApiErr.serverError
      | Except.ok cs =>
        match dirLoop root targetText (sortByName cs) with
        | Except.error _ => Except.error ApiErr.serverError
        | Except.ok (dirs, ic, vc) =>
          Except.ok
            { path := path, directories := dirs
              image_count := ic, video_count := vc }
    else Except.error ApiErr.badRequest

/-- The loop of list_media (src/main.py lines 330-342): append each
classified file (respecting the filter) to the matching sequence. -/
def mediaLoop (root targetText : List String) (media_type : Option String) :
    List (String × Node) → List MediaEntry × List MediaEntry
  | [] => ([], [])
  | (name, n) :: rest =>
    let (imgs, vids) := mediaLoop root targetText media_type rest
    if isFileNode n && is_media_file name media_type then
      match get_media_type name with
      | some "images" =>
        ({ name := name
           path := relative_to_media_root root (targetText ++ [name]) } :: imgs,
         vids)
      | some "videos" =>
        (imgs,
         { name := name
           path := relative_to_media_root root (targetText ++ [name]) } :: vids)
      | _ => (imgs, vids)
    else (imgs, vids)

/-- list_media from src/main.py lines 310-353 (`GET /api/media`). -/
def list_media (fs : Node) (root : List String) (path : String)
    (media_type : Option String) : Except ApiErr MediaListing :=
  let targetText := pyJoinOpt root path
  match lookup (resolveSegs targetText) fs with
  | none => Except.error ApiErr.notFound
  | some target =>
    if isDirNode target then
      match enumChildren target with
      | Except.error _ => Except.error ApiErr.serverError
      | Except.ok cs =>
        let (imgs, vids) := mediaLoop root targetText media_type (sortByName cs)
        Except.ok { path := path, images := imgs, videos := vids }
    else Except.error ApiErr.badRequest

/-- The page produced by generate_slideshow_html: the early-return
"Directory not found" div, the catch-all error div (still an HTML page,
served with status 200), or a full slideshow page embedding the media
list as page data. -/
inductive SlidePage where
  | notFoundPage
  | errorPage
  | mediaPage (files : List MediaEntry)
deriving DecidableEq, Repr

/-- The media sequence a slideshow page renders: the not-found and
error pages embed no entries. -/
def SlidePage.mediaOf : SlidePage → List MediaEntry
  | SlidePage.mediaPage files => files
  | _ => []

/-- The collection loop of generate_slideshow_html (src/main.py lines
370-375): one flat list of files matching the requested type. -/
def slideLoop (root targetText : List String) (media_type : String) :
    List (String × Node) → List MediaEntry
  | [] => []
  | (name, n) :: rest =>
    if isFileNode n && is_media_file name (some media_type) then
      { name := name
        path := relative_to_media_root root (targetText ++ [name]) }
        :: slideLoop root targetText media_type rest
    else slideLoop root targetText media_type rest

/-- generate_slideshow_html from src/main.py lines 356-632. `shuffle`
is the oracle standing for `random.shuffle` (applied once, only when
`randomize` is true). A missing directory returns the not-found div; a
failing enumeration falls into the catch-all `except` and returns the
error div; both are successful page bodies, not HTTP errors. -/
def generate_slideshow_html (fs : Node) (root : List String)
    (shuffle : List MediaEntry → List MediaEntry)
    (media_type : String) (path : String) (randomize : Bool) : SlidePage :=
  let targetText := pyJoinOpt root path
  match lookup (resolveSegs targetText) fs with
  | none => SlidePage.notFoundPage
  | some target =>
    match enumChildren target with
    | Except.error _ => SlidePage.errorPage
    | Except.ok cs =>
      let files := slideLoop root targetText media_type (sortByName cs)
      SlidePage.mediaPage (if randomize then shuffle files else files)

/-- slideshow_page from src/main.py lines 635-642 (`GET
/slideshow/{media_type}`): 404 unless media_type is exactly "images" or
"videos", otherwise the generated page is returned with status 200. -/
def slideshow_page (fs : Node) (root : List String)
    (shuffle : List MediaEntry → List MediaEntry)
    (media_type : String) (path : String) (randomize : Bool) :
    Except ApiErr SlidePage :=
  if media_type = "images" ∨ media_type = "videos" then
    Except.ok (generate_slideshow_html fs root shuffle media_type path randomize)
  else Except.error ApiErr.notFound

/-- The content-type table of serve_media (src/main.py lines 667-678). -/
def CONTENT_TYPES : List (String × String) :=
  [("jpg", "image/jpeg"), ("jpeg", "image/jpeg"), ("png", "image/png"),
   ("gif", "image/gif"), ("webp", "image/webp"), ("mp4", "video/mp4"),
   ("mov", "video/quicktime"), ("avi", "video/x-msvideo"),
   ("mkv", "video/x-matroska"), ("webm", "video/webm")]

/-- The `.get(ext, 'application/octet-stream')` dictionary lookup. -/
def contentTypeOf (ext : String) : String :=
  (CONTENT_TYPES.lookup ext).getD "application/octet-stream"

/-- serve_media from src/main.py lines 645-688 (`GET
/media/{file_path}`). Returns the content type of the streamed file on
success. The containment check is the code's literal
`str(resolved).startswith(str(root_resolved))` string comparison, run
before the existence and regular-file checks; the extension is taken
from the raw request string `file_path`. -/
def serve_media (fs : Node) (root : List String) (file_path : String) :
    Except ApiErr String :=
  let resolved := resolveSegs (pyJoin root file_path)
  let rootResolved := resolveSegs root
  if ¬ strStartsWith (pathStr resolved) (pathStr rootResolved) then
    Except.error ApiErr.accessDenied
  else
    match lookup resolved fs with
    | none => Except.error ApiErr.notFound
    | some n =>
      if ¬ isFileNode n then Except.error ApiErr.badRequest
      else Except.ok (contentTypeOf (String.mk (pyExt file_path)))

/-! Concrete filesystems used as witnesses and counterexamples. -/

/-- A filesystem with sibling directories `/root` and `/root-evil`,
the classic string-prefix collision pair. -/
def fsSibling : Node :=
  Node.dir
    [("root", Node.dir [("a.jpg", Node.file)]),
     ("root-evil", Node.dir [("x", Node.file)])]

/-- A filesystem with the media root `/media` next to `/secret`. -/
def fsSecret : Node :=
  Node.dir
    [("media", Node.dir [("a.jpg", Node.file)]),
     ("secret", Node.dir [("s.png", Node.file)])]

/-- Children of the spec §8 example tree: a subdirectory `A` with two
jpgs and one mp4, and a file `b.png` at top level. -/
def csExample : List (String × Node) :=
  [("A", Node.dir
      [("a1.jpg", Node.file), ("a2.jpg", Node.file), ("v.mp4", Node.file)]),
   ("b.png", Node.file)]

/-- The spec §8 example tree as a directory node. -/
def fsExample : Node := Node.dir csExample

/-- Children with one unreadable (permission) subdirectory and one
media file. -/
def csPerm : List (String × Node) :=
  [("a.jpg", Node.file), ("locked", Node.badDir EnumErr.permission)]

/-- A root with one unreadable (permission) subdirectory and one media
file. -/
def fsPerm : Node := Node.dir csPerm

/-- Children with a subdirectory whose enumeration raises a
non-permission I/O error. -/
def csIo : List (String × Node) :=
  [("a.jpg", Node.file), ("broken", Node.badDir EnumErr.ioError)]

/-- A root with a subdirectory whose enumeration raises a
non-permission I/O error. -/
def fsIo : Node := Node.dir csIo

/-- Children holding one image, one video and one subdirectory. -/
def csMedia : List (String × Node) :=
  [("a.png", Node.file), ("b.mp4", Node.file), ("sub", Node.dir [])]

/-- A root holding one image, one video and one subdirectory. -/
def fsMedia : Node := Node.dir csMedia

example :
    serve_media fsSibling ["root"] "../root-evil/x"
      = Except.ok "application/octet-stream" := by rfl

example :
    list_directories fsSecret ["media"] "../secret"
      = Except.ok
          { path := "../secret", directories := []
            image_count := 1, video_count := 0 } := by rfl

example :
    list_media fsSecret ["media"] "../secret" none
      = Except.ok
          { path := "../secret"
            images := [{ name := "s.png", path := "../secret/s.png" }]
            videos := [] } := by rfl

example :
    list_directories fsExample [] ""
      = Except.ok
          { path := ""
            directories := [{ name := "A", path := "A", image_count := 2, video_count := 1 }]
            image_count := 1, video_count := 0 } := by rfl

example :
    list_directories fsPerm [] ""
      = Except.ok
          { path := ""
            directories := [{ name := "locked", path := "locked", image_count := 0, video_count := 0 }]
            image_count := 1, video_count := 0 } := by rfl

example :
    list_directories fsIo [] "" = Except.error ApiErr.serverError := by rfl

example :
    list_media fsMedia [] "" (some "images")
      = Except.ok
          { path := ""
            images := [{ name := "a.png", path := "a.png" }]
            videos := [] } := by rfl

example :
    serve_media fsMedia [] "b.mp4" = Except.ok "video/mp4" := by rfl

example :
    serve_media fsMedia [] "missing.png" = Except.error ApiErr.notFound := by rfl

example :
    serve_media fsMedia [] "sub" = Except.error ApiErr.badRequest := by rfl

example :
    slideshow_page fsMedia [] id "images" "nope" false
      = Except.ok SlidePage.notFoundPage := by rfl

example :
    slideshow_page fsMedia [] id "bogus" "" false
      = Except.error ApiErr.notFound := by rfl

example :
    slideshow_page fsMedia [] id "videos" "" false
      = Except.ok (SlidePage.mediaPage [{ name := "b.mp4", path := "b.mp4" }]) := by
  rfl

/-! Lemmas about Python splitting and the classifier. -/

theorem pySplit_ne_nil (sep : Char) (cs : List Char) : pySplit sep cs ≠ [] := by
  induction cs with
  | nil => simp [pySplit]
  | cons c rest ih =>
    simp only [pySplit]
    by_cases h : c = sep
    · simp [h]
    · simp only [if_neg h]
      cases hp : pySplit sep rest with
      | nil => simp
      | cons p ps => simp

theorem getLastD_irrel {α : Type} (l : List α) (h : l ≠ []) (a b : α) :
    l.getLastD a = l.getLastD b := by
  cases l with
  | nil => exact absurd rfl h
  | cons x xs => simp [List.getLastD]

theorem pySplit_no_sep (sep : Char) (cs : List Char) (h : sep ∉ cs) :
    pySplit sep cs = [cs] := by
  induction cs with
  | nil => simp [pySplit]
  | cons c rest ih =>
    simp only [pySplit]
    have hc : c ≠ sep := fun hc => h (hc ▸ List.mem_cons_self c rest)
    have hr : sep ∉ rest := fun hr => h (List.mem_cons_of_mem c hr)
    rw [if_neg hc, ih hr]

theorem pySplit_len2 (sep : Char) (cs : List Char) (h : sep ∈ cs) :
    2 ≤ (pySplit sep cs).length := by
  induction cs with
  | nil => cases h
  | cons c rest ih =>
    simp only [pySplit]
    by_cases hc : c = sep
    · simp only [if_pos hc, List.length_cons]
      have := List.length_pos.mpr (pySplit_ne_nil sep rest)
      omega
    · have hr : sep ∈ rest := by
        cases List.mem_cons.mp h with
        | inl h1 => exact absurd h1.symm hc
        | inr h2 => exact h2
      simp only [if_neg hc]
      cases hp : pySplit sep rest with
      | nil => exact absurd hp (pySplit_ne_nil sep rest)
      | cons p ps =>
        have := ih hr
        rw [hp] at this
        simpa using this

theorem getLastD_cons_ne_nil {α : Type} (a : α) (l : List α) (d : α)
    (h : l ≠ []) : (a :: l).getLastD d = l.getLastD d := by
  cases l with
  | nil => exact absurd rfl h
  | cons x xs => simp [List.getLastD]

theorem pySplit_last_append (sep : Char) (xs ys : List Char) :
    (pySplit sep (xs ++ sep :: ys)).getLastD []
      = (pySplit sep ys).getLastD [] := by
  induction xs with
  | nil =>
    have h0 : pySplit sep (sep :: ys) = [] :: pySplit sep ys := by
      simp [pySplit]
    rw [List.nil_append, h0, getLastD_cons_ne_nil _ _ _ (pySplit_ne_nil sep ys)]
  | cons c xs ih =>
    by_cases hc : c = sep
    · have h0 : pySplit sep (c :: (xs ++ sep :: ys))
          = [] :: pySplit sep (xs ++ sep :: ys) := by
        simp [pySplit, hc]
      rw [List.cons_append, h0,
        getLastD_cons_ne_nil _ _ _ (pySplit_ne_nil sep _)]
      exact ih
    · cases hp : pySplit sep (xs ++ sep :: ys) with
      | nil => exact absurd hp (pySplit_ne_nil sep _)
      | cons p ps =>
        have hlen : 2 ≤ (pySplit sep (xs ++ sep :: ys)).length :=
          pySplit_len2 sep _ (by simp)
        rw [hp] at hlen
        cases ps with
        | nil => simp at hlen
        | cons q qs =>
          have h0 : pySplit sep (c :: (xs ++ sep :: ys))
              = (c :: p) :: q :: qs := by
            simp only [pySplit, if_neg hc, hp]
          have hih := ih
          rw [hp, getLastD_cons_ne_nil _ _ _ (by simp)] at hih
          rw [List.cons_append, h0,
            getLastD_cons_ne_nil _ _ _ (by simp)]
          exact hih

theorem toLower_ne_dot {c : Char} (h : c ≠ '.') : c.toLower ≠ '.' := by
  unfold Char.toLower
  by_cases hcond : c.toNat ≥ 65 ∧ c.toNat ≤ 90
  · rw [if_pos hcond]
    obtain ⟨h1, h2⟩ := hcond
    generalize hm : c.toNat = m at h1 h2
    interval_cases m <;> decide
  · rw [if_neg hcond]
    exact h

theorem map_toLower_dot_free {e : List Char} (h : '.' ∉ e) :
    '.' ∉ e.map Char.toLower := by
  intro hmem
  obtain ⟨c, hc, heq⟩ := List.mem_map.mp hmem
  exact toLower_ne_dot (fun hcd => h (hcd ▸ hc)) heq

theorem data_append_dot (s e : String) :
    (s ++ "." ++ e).data = s.data ++ '.' :: e.data := by
  simp [String.data_append]

theorem pyExt_append_ext (s e : String) (h : '.' ∉ e.data) :
    pyExt (s ++ "." ++ e) = (pyLower e).data := by
  unfold pyExt pyLower
  rw [data_append_dot]
  simp only [List.map_append, List.map_cons]
  rw [show ('.' : Char).toLower = '.' from by decide]
  rw [pySplit_last_append]
  rw [pySplit_no_sep '.' _ (map_toLower_dot_free h)]
  rfl

theorem pyExt_no_dot (s : String) (h : '.' ∉ s.data) :
    pyExt s = (pyLower s).data := by
  unfold pyExt pyLower
  rw [pySplit_no_sep '.' _ (map_toLower_dot_free h)]
  rfl

theorem vid_not_img {x : List Char} (h : x ∈ VID_EXTS) : x ∉ IMG_EXTS := by
  fin_cases h <;> decide

/-- C3: the media classifier is total (it is a Lean function, defined on
every string) and case-insensitive (it depends on a filename only
through its lowercased form); the extension is the substring after the
last dot, a dotless name is compared whole against the extension sets;
names ending in an image extension classify as images, names ending in
a video extension classify as videos, any other extension yields none;
classify("A.JPG") = Image, classify("a.b.mp4") = Video,
classify("x") = none. -/
theorem classifier_total_case_insensitive :
    (∀ s t : String, pyLower s = pyLower t → get_media_type s = get_media_type t)
    ∧ (∀ s : String, is_media_file s none = (get_media_type s).isSome)
    ∧ (∀ s e : String, '.' ∉ e.data → (pyLower e).data ∈ IMG_EXTS →
        get_media_type (s ++ "." ++ e) = some "images")
    ∧ (∀ s e : String, '.' ∉ e.data → (pyLower e).data ∈ VID_EXTS →
        get_media_type (s ++ "." ++ e) = some "videos")
    ∧ (∀ s e : String, '.' ∉ e.data → (pyLower e).data ∉ IMG_EXTS →
        (pyLower e).data ∉ VID_EXTS → get_media_type (s ++ "." ++ e) = none)
    ∧ (∀ s : String, '.' ∉ s.data →
        get_media_type s =
          if (pyLower s).data ∈ IMG_EXTS then some "images"
          else if (pyLower s).data ∈ VID_EXTS then some "videos" else none)
    ∧ get_media_type "A.JPG" = some "images"
    ∧ get_media_type "a.b.mp4" = some "videos"
    ∧ get_media_type "x" = none := by
  refine ⟨?_, ?_, ?_, ?_, ?_, ?_, by decide, by decide, by decide⟩
  · intro s t h
    unfold get_media_type pyExt
    rw [h]
  · intro s
    unfold is_media_file get_media_type
    by_cases h1 : pyExt s ∈ IMG_EXTS
    · simp [h1]
    · by_cases h2 : pyExt s ∈ VID_EXTS <;> simp [h1, h2]
  · intro s e hdot himg
    unfold get_media_type
    rw [pyExt_append_ext s e hdot, if_pos himg]
  · intro s e hdot hvid
    unfold get_media_type
    rw [pyExt_append_ext s e hdot, if_neg (vid_not_img hvid), if_pos hvid]
  · intro s e hdot himg hvid
    unfold get_media_type
    rw [pyExt_append_ext s e hdot, if_neg himg, if_neg hvid]
  · intro s hdot
    unfold get_media_type
    rw [pyExt_no_dot s hdot]

/-- C3 witness: the universal parts applied at concrete inputs. -/
theorem classifier_total_case_insensitive_witness :
    get_media_type "photo.JPG" = some "images"
    ∧ get_media_type "clip.MKV" = some "videos"
    ∧ get_media_type "notes.txt" = none
    ∧ get_media_type "README" = none
    ∧ get_media_type "UPPER.GIF" = get_media_type "upper.gif"
    ∧ is_media_file "x.webm" none = (get_media_type "x.webm").isSome := by
  obtain ⟨hci, htot, himg, hvid, hnone, hnd, _, _, _⟩ :=
    classifier_total_case_insensitive
  refine ⟨?_, ?_, ?_, ?_, ?_, htot "x.webm"⟩
  · exact himg "photo" "JPG" (by decide) (by decide)
  · exact hvid "clip" "MKV" (by decide) (by decide)
  · exact hnone "notes" "txt" (by decide) (by decide) (by decide)
  · rw [hnd "README" (by decide)]; decide
  · exact hci "UPPER.GIF" "upper.gif" (by decide)

/-- C1: the claim states that any request whose canonicalized path is
not the canonical root or a descendant of it is rejected with 403, the
containment comparison being segment-aware, so that a sibling directory
such as /root-evil under root /root is rejected. The code instead uses
a naive string comparison, `str(resolved).startswith(str(root))`
(src/main.py line 656). This theorem exhibits the divergence: with root
/root, the request file_path "../root-evil/x" canonicalizes to
/root-evil/x, which is not the root nor a descendant of it
(segment-wise), yet the startswith check passes and the file is served
(200) instead of being denied (403). -/
theorem serve_media_prefix_collision_served :
    serve_media fsSibling ["root"] "../root-evil/x"
        = Except.ok "application/octet-stream"
    ∧ resolveSegs (pyJoin ["root"] "../root-evil/x") = ["root-evil", "x"]
    ∧ ¬ resolveSegs ["root"] <+: resolveSegs (pyJoin ["root"] "../root-evil/x")
    ∧ strStartsWith (pathStr (resolveSegs (pyJoin ["root"] "../root-evil/x")))
        (pathStr (resolveSegs ["root"])) = true := by
  refine ⟨rfl, rfl, ?_, rfl⟩
  decide

/-- C2: the claim states that every filesystem-serving endpoint
independently rejects, with 403 AccessDenied, any client path resolving
outside the root. The listing, media-listing and slideshow handlers
(src/main.py lines 249-353, 356-642) perform no containment check at
all: with root /media, the path "../secret" resolves to /secret,
outside the root, yet all three endpoints succeed and report the
contents of /secret. -/
theorem listing_endpoints_serve_outside_root :
    (¬ resolveSegs ["media"] <+: resolveSegs (pyJoinOpt ["media"] "../secret"))
    ∧ list_directories fsSecret ["media"] "../secret"
        = Except.ok
            { path := "../secret", directories := []
              image_count := 1, video_count := 0 }
    ∧ list_media fsSecret ["media"] "../secret" none
        = Except.ok
            { path := "../secret"
              images := [{ name := "s.png", path := "../secret/s.png" }]
              videos := [] }
    ∧ generate_slideshow_html fsSecret ["media"] id "images" "../secret" false
        = SlidePage.mediaPage [{ name := "s.png", path := "../secret/s.png" }] := by
  refine ⟨?_, rfl, rfl, rfl⟩
  decide

/-! Classification helper lemmas. -/

theorem get_media_type_eq_some {s : String} {v : String}
    (h : get_media_type s = some v) : v = "images" ∨ v = "videos" := by
  unfold get_media_type at h
  by_cases h1 : pyExt s ∈ IMG_EXTS
  · rw [if_pos h1] at h
    exact Or.inl (Option.some.inj h).symm
  · rw [if_neg h1] at h
    by_cases h2 : pyExt s ∈ VID_EXTS
    · rw [if_pos h2] at h
      exact Or.inr (Option.some.inj h).symm
    · rw [if_neg h2] at h
      cases h

theorem is_media_file_none_eq (s : String) :
    is_media_file s none = (get_media_type s).isSome := by
  unfold is_media_file get_media_type
  by_cases h1 : pyExt s ∈ IMG_EXTS
  · simp [h1]
  · by_cases h2 : pyExt s ∈ VID_EXTS <;> simp [h1, h2]

theorem media_file_video {s : String} (h1 : is_media_file s none = true)
    (h2 : ¬ get_media_type s = some "images") :
    get_media_type s = some "videos" := by
  rw [is_media_file_none_eq] at h1
  cases hg : get_media_type s with
  | none => rw [hg] at h1; simp at h1
  | some v =>
    cases get_media_type_eq_some hg with
    | inl hv => exact absurd (by rw [hg, hv]) h2
    | inr hv => exact congrArg some hv

theorem not_media_file_gmt {s : String} (h : is_media_file s none = false) :
    get_media_type s = none := by
  rw [is_media_file_none_eq] at h
  cases hg : get_media_type s with
  | none => rfl
  | some v => rw [hg] at h; simp at h

theorem is_media_file_images_iff (s : String) :
    is_media_file s (some "images") = true ↔ get_media_type s = some "images" := by
  unfold is_media_file get_media_type
  by_cases h1 : pyExt s ∈ IMG_EXTS
  · simp [h1]
  · by_cases h2 : pyExt s ∈ VID_EXTS <;> simp [h1, h2]

theorem is_media_file_videos_iff (s : String) :
    is_media_file s (some "videos") = true ↔ get_media_type s = some "videos" := by
  unfold is_media_file get_media_type
  by_cases h2 : pyExt s ∈ VID_EXTS
  · simp [h2, vid_not_img h2]
  · by_cases h1 : pyExt s ∈ IMG_EXTS <;> simp [h1, h2]

/-! Order and permutation lemmas for the name sort. -/

theorem nameLt_nil (a : List Char) : nameLt a [] = false := by
  cases a <;> rfl

theorem nameLt_iff_lex :
    ∀ a b : List Char, nameLt a b = true ↔ List.Lex (· < ·) a b
  | a, [] => by
    constructor
    · intro h
      rw [nameLt_nil a] at h
      cases h
    · intro h; cases h
  | [], b :: bs => by
    constructor
    · intro _; exact List.Lex.nil
    · intro _; rfl
  | a :: as, b :: bs => by
    simp only [nameLt, Bool.or_eq_true, Bool.and_eq_true, decide_eq_true_eq]
    constructor
    · intro h
      cases h with
      | inl h1 => exact List.Lex.rel h1
      | inr h2 =>
        cases h2.1
        exact List.Lex.cons ((nameLt_iff_lex as bs).mp h2.2)
    · intro h
      cases h with
      | rel h1 => exact Or.inl h1
      | cons h2 => exact Or.inr ⟨rfl, (nameLt_iff_lex as bs).mpr h2⟩

theorem nameLt_iff_stringLt (x y : String) :
    nameLt x.data y.data = true ↔ x < y := by
  rw [String.lt_iff_toList_lt]
  exact nameLt_iff_lex x.data y.data

theorem insertByName_perm (x : String × Node) (l : List (String × Node)) :
    List.Perm (insertByName x l) (x :: l) := by
  induction l with
  | nil => exact List.Perm.refl _
  | cons y ys ih =>
    unfold insertByName
    by_cases h : nameLt y.1.data x.1.data = true
    · rw [if_pos h]
      exact (ih.cons y).trans (List.Perm.swap x y ys)
    · rw [if_neg h]

theorem sortByName_perm (l : List (String × Node)) :
    List.Perm (sortByName l) l := by
  induction l with
  | nil => exact List.Perm.refl _
  | cons x xs ih =>
    exact (insertByName_perm x (sortByName xs)).trans (ih.cons x)

theorem insertByName_pairwise {x : String × Node} {l : List (String × Node)}
    (h : l.Pairwise (fun p q => p.1 ≤ q.1)) :
    (insertByName x l).Pairwise (fun p q => p.1 ≤ q.1) := by
  induction l with
  | nil => simp [insertByName]
  | cons y ys ih =>
    cases h with
    | cons hy hys =>
      unfold insertByName
      by_cases hc : nameLt y.1.data x.1.data = true
      · rw [if_pos hc]
        refine List.Pairwise.cons ?_ (ih hys)
        intro z hz
        cases (insertByName_perm x ys).mem_iff.mp hz with
        | head => exact le_of_lt ((nameLt_iff_stringLt y.1 x.1).mp hc)
        | tail _ hmem => exact hy z hmem
      · rw [if_neg hc]
        have hxy : x.1 ≤ y.1 :=
          not_lt.mp (fun hlt => hc ((nameLt_iff_stringLt y.1 x.1).mpr hlt))
        refine List.Pairwise.cons ?_ (List.Pairwise.cons hy hys)
        intro z hz
        cases hz with
        | head => exact hxy
        | tail _ hmem => exact le_trans hxy (hy z hmem)

theorem sortByName_pairwise (l : List (String × Node)) :
    (sortByName l).Pairwise (fun p q => p.1 ≤ q.1) := by
  induction l with
  | nil => exact List.Pairwise.nil
  | cons x xs ih => exact insertByName_pairwise ih

/-! Spec-side counting and entry functions, and exact characterizations
of the handler loops. -/

/-- A child that is an image file directly inside a directory. -/
def isImgFile (p : String × Node) : Bool :=
  isFileNode p.2 && (get_media_type p.1 == some "images")

/-- A child that is a video file directly inside a directory. -/
def isVidFile (p : String × Node) : Bool :=
  isFileNode p.2 && (get_media_type p.1 == some "videos")

/-- A directory whose enumeration raises a non-permission error. -/
def isIoBad : Node → Bool
  | Node.badDir EnumErr.ioError => true
  | _ => false

/-- The `DirEntry` a child contributes to a directory listing: `none`
for files, counts of the classifiable files directly inside for
readable subdirectories (one level, no recursion), zero counts for
unreadable ones. -/
def dirEntryOf (root tt : List String) (p : String × Node) : Option DirEntry :=
  match p.2 with
  | Node.dir sub =>
    some { name := p.1, path := relative_to_media_root root (tt ++ [p.1])
           image_count := sub.countP isImgFile
           video_count := sub.countP isVidFile }
  | Node.badDir _ =>
    some { name := p.1, path := relative_to_media_root root (tt ++ [p.1])
           image_count := 0, video_count := 0 }
  | Node.file => none

theorem countMediaAux_eq :
    ∀ (l : List (String × Node)) (a b : Nat),
      countMediaAux (a, b) l = (a + l.countP isImgFile, b + l.countP isVidFile)
  | [], a, b => by simp [countMediaAux]
  | (name, n) :: rest, a, b => by
    simp only [countMediaAux]
    by_cases ht : (isFileNode n && is_media_file name none) = true
    · have ht2 := ht
      simp only [Bool.and_eq_true] at ht2
      obtain ⟨hf, hm⟩ := ht2
      rw [if_pos ht]
      by_cases himg : get_media_type name = some "images"
      · rw [if_pos himg, countMediaAux_eq rest (a + 1) b]
        have hI : isImgFile (name, n) = true := by
          simp [isImgFile, hf, himg]
        have hV : isVidFile (name, n) = false := by
          simp [isVidFile, hf, himg]
        simp [List.countP_cons, hI, hV, Prod.ext_iff]
        omega
      · rw [if_neg himg, countMediaAux_eq rest a (b + 1)]
        have hvid := media_file_video hm himg
        have hI : isImgFile (name, n) = false := by
          simp [isImgFile, hf, hvid]
        have hV : isVidFile (name, n) = true := by
          simp [isVidFile, hf, hvid]
        simp [List.countP_cons, hI, hV, Prod.ext_iff]
        omega
    · rw [if_neg ht, countMediaAux_eq rest a b]
      have hm : isFileNode n = true → is_media_file name none = false := by
        intro hf
        cases hmm : is_media_file name none with
        | false => rfl
        | true => exact absurd (by simp [hf, hmm]) ht
      have hI : isImgFile (name, n) = false := by
        cases hf : isFileNode n with
        | false => simp [isImgFile, hf]
        | true => simp [isImgFile, not_media_file_gmt (hm hf)]
      have hV : isVidFile (name, n) = false := by
        cases hf : isFileNode n with
        | false => simp [isVidFile, hf]
        | true => simp [isVidFile, not_media_file_gmt (hm hf)]
      simp only [List.countP_cons, hI, hV]
      simp

theorem countMedia_eq (l : List (String × Node)) :
    countMedia l = (l.countP isImgFile, l.countP isVidFile) := by
  unfold countMedia
  rw [countMediaAux_eq]
  simp

theorem dirLoop_eq (root tt : List String) :
    ∀ cs : List (String × Node),
      dirLoop root tt cs =
        if cs.any (fun p => isIoBad p.2) then Except.error EnumErr.ioError
        else
          Except.ok (cs.filterMap (dirEntryOf root tt),
            cs.countP isImgFile, cs.countP isVidFile)
  | [] => by simp [dirLoop]
  | (name, n) :: rest => by
    have ih := dirLoop_eq root tt rest
    cases n with
    | dir sub =>
      simp only [dirLoop, isDirNode, if_true,
        show dirItemCounts (Node.dir sub) = Except.ok (countMedia sub) from rfl,
        countMedia_eq, ih, List.any_cons,
        show isIoBad (Node.dir sub) = false from rfl, Bool.false_or]
      by_cases hany : rest.any (fun p => isIoBad p.2) = true
      · simp [hany]
      · simp only [Bool.not_eq_true] at hany
        simp [hany, dirEntryOf, List.countP_cons, isImgFile, isVidFile,
          isFileNode]
    | badDir e =>
      cases e with
      | permission =>
        simp only [dirLoop, isDirNode, if_true,
          show dirItemCounts (Node.badDir EnumErr.permission)
            = Except.ok (0, 0) from rfl, ih, List.any_cons,
          show isIoBad (Node.badDir EnumErr.permission) = false from rfl,
          Bool.false_or]
        by_cases hany : rest.any (fun p => isIoBad p.2) = true
        · simp [hany]
        · simp only [Bool.not_eq_true] at hany
          simp [hany, dirEntryOf, List.countP_cons, isImgFile,
            isVidFile, isFileNode]
      | ioError =>
        simp only [dirLoop, isDirNode, if_true,
          show dirItemCounts (Node.badDir EnumErr.ioError)
            = Except.error EnumErr.ioError from rfl, ih, List.any_cons,
          show isIoBad (Node.badDir EnumErr.ioError) = true from rfl,
          Bool.true_or]
    | file =>
      have hfile : isIoBad Node.file = false := rfl
      by_cases hm : is_media_file name none = true
      · simp only [dirLoop, isDirNode, isFileNode, Bool.true_and, hm, ih,
          List.any_cons, hfile, Bool.false_or]
        by_cases hany : rest.any (fun p => isIoBad p.2) = true
        · simp only [hany, if_true]
          by_cases himg : get_media_type name = some "images" <;> simp [himg]
        · simp only [Bool.not_eq_true] at hany
          by_cases himg : get_media_type name = some "images"
          · simp [hany, himg, dirEntryOf, List.countP_cons,
              isImgFile, isVidFile, isFileNode]
          · have hvid := media_file_video hm himg
            simp [hany, himg, hvid, dirEntryOf, List.countP_cons,
              isImgFile, isVidFile, isFileNode]
      · simp only [Bool.not_eq_true] at hm
        simp only [dirLoop, isDirNode, isFileNode, Bool.true_and, hm, ih,
          List.any_cons, hfile, Bool.false_or]
        have hgmt := not_media_file_gmt hm
        by_cases hany : rest.any (fun p => isIoBad p.2) = true
        · simp [hany]
        · simp only [Bool.not_eq_true] at hany
          simp [hany, dirEntryOf, List.countP_cons, isImgFile,
            isVidFile, isFileNode, hgmt]

/-- The `MediaEntry` a child contributes to the images or videos
sequence of `/api/media`: present when it is a file passing the filter
and classifying as the wanted category. -/
def mediaEntryOf (root tt : List String) (media_type : Option String)
    (wanted : String) (p : String × Node) : Option MediaEntry :=
  if isFileNode p.2 && is_media_file p.1 media_type
      && (get_media_type p.1 == some wanted) then
    some { name := p.1, path := relative_to_media_root root (tt ++ [p.1]) }
  else none

theorem mediaLoop_eq (root tt : List String) (media_type : Option String) :
    ∀ cs : List (String × Node),
      mediaLoop root tt media_type cs
        = (cs.filterMap (mediaEntryOf root tt media_type "images"),
           cs.filterMap (mediaEntryOf root tt media_type "videos"))
  | [] => by simp [mediaLoop]
  | (name, n) :: rest => by
    have ih := mediaLoop_eq root tt media_type rest
    simp only [mediaLoop, ih]
    by_cases hc : (isFileNode n && is_media_file name media_type) = true
    · cases hg : get_media_type name with
      | none =>
        simp [hc, hg, mediaEntryOf, List.filterMap_cons]
      | some v =>
        by_cases hv1 : v = "images"
        · subst hv1
          simp [hc, hg, mediaEntryOf, List.filterMap_cons]
        · by_cases hv2 : v = "videos"
          · subst hv2
            simp [hc, hg, mediaEntryOf, List.filterMap_cons]
          · cases get_media_type_eq_some hg with
            | inl h => exact absurd h hv1
            | inr h => exact absurd h hv2
    · simp only [Bool.not_eq_true] at hc
      simp [hc, mediaEntryOf, List.filterMap_cons]

/-- The `MediaEntry` a child contributes to the slideshow sequence:
present when it is a file passing the type filter. -/
def slideEntryOf (root tt : List String) (media_type : String)
    (p : String × Node) : Option MediaEntry :=
  if isFileNode p.2 && is_media_file p.1 (some media_type) then
    some { name := p.1, path := relative_to_media_root root (tt ++ [p.1]) }
  else none

theorem slideLoop_eq (root tt : List String) (media_type : String) :
    ∀ cs : List (String × Node),
      slideLoop root tt media_type cs
        = cs.filterMap (slideEntryOf root tt media_type)
  | [] => by simp [slideLoop]
  | (name, n) :: rest => by
    have ih := slideLoop_eq root tt media_type rest
    simp only [slideLoop, ih]
    by_cases hc : (isFileNode n && is_media_file name (some media_type)) = true
    · simp [hc, slideEntryOf, List.filterMap_cons]
    · simp only [Bool.not_eq_true] at hc
      simp [hc, slideEntryOf, List.filterMap_cons]

/-! Endpoint-level characterizations and inversions. -/

theorem perm_any (f : (String × Node) → Bool)
    {l1 l2 : List (String × Node)} (h : List.Perm l1 l2) :
    l1.any f = l2.any f := by
  rw [Bool.eq_iff_iff]
  simp only [List.any_eq_true]
  constructor
  · rintro ⟨p, hp, hpb⟩
    exact ⟨p, h.mem_iff.mp hp, hpb⟩
  · rintro ⟨p, hp, hpb⟩
    exact ⟨p, h.mem_iff.mpr hp, hpb⟩

theorem any_isIoBad_sortByName (cs : List (String × Node)) :
    (sortByName cs).any (fun p => isIoBad p.2)
      = cs.any (fun p => isIoBad p.2) :=
  perm_any _ (sortByName_perm cs)

theorem list_directories_eq (fs : Node) (root : List String) (path : String)
    (cs : List (String × Node))
    (h : lookup (resolveSegs (pyJoinOpt root path)) fs = some (Node.dir cs)) :
    list_directories fs root path =
      if cs.any (fun p => isIoBad p.2) then Except.error ApiErr.serverError
      else
        Except.ok
          { path := path
            directories :=
              (sortByName cs).filterMap (dirEntryOf root (pyJoinOpt root path))
            image_count := cs.countP isImgFile
            video_count := cs.countP isVidFile } := by
  simp only [list_directories]
  rw [h]
  simp only [isDirNode, if_true,
    show enumChildren (Node.dir cs) = Except.ok cs from rfl,
    dirLoop_eq, any_isIoBad_sortByName]
  by_cases hany : cs.any (fun p => isIoBad p.2) = true
  · simp [hany]
  · simp only [Bool.not_eq_true] at hany
    simp only [hany, if_false, Bool.false_eq_true]
    rw [(sortByName_perm cs).countP_eq isImgFile,
      (sortByName_perm cs).countP_eq isVidFile]

theorem list_media_eq (fs : Node) (root : List String) (path : String)
    (media_type : Option String) (cs : List (String × Node))
    (h : lookup (resolveSegs (pyJoinOpt root path)) fs = some (Node.dir cs)) :
    list_media fs root path media_type =
      Except.ok
        { path := path
          images := (sortByName cs).filterMap
            (mediaEntryOf root (pyJoinOpt root path) media_type "images")
          videos := (sortByName cs).filterMap
            (mediaEntryOf root (pyJoinOpt root path) media_type "videos") } := by
  simp only [list_media]
  rw [h]
  simp only [isDirNode, if_true,
    show enumChildren (Node.dir cs) = Except.ok cs from rfl,
    mediaLoop_eq]

theorem list_directories_ok (fs : Node) (root : List String) (path : String)
    (l : DirListing) (h : list_directories fs root path = Except.ok l) :
    ∃ cs, lookup (resolveSegs (pyJoinOpt root path)) fs = some (Node.dir cs)
      ∧ l.directories
          = (sortByName cs).filterMap (dirEntryOf root (pyJoinOpt root path)) := by
  simp only [list_directories] at h
  cases hlk : lookup (resolveSegs (pyJoinOpt root path)) fs with
  | none => rw [hlk] at h; cases h
  | some target =>
    rw [hlk] at h
    cases target with
    | file => simp [isDirNode] at h
    | badDir e =>
      simp only [isDirNode, if_true,
        show enumChildren (Node.badDir e) = Except.error e from rfl] at h
      cases h
    | dir cs =>
      refine ⟨cs, rfl, ?_⟩
      simp only [isDirNode, if_true,
        show enumChildren (Node.dir cs) = Except.ok cs from rfl,
        dirLoop_eq] at h
      by_cases hany :
          (sortByName cs).any (fun p => isIoBad p.2) = true
      · rw [if_pos hany] at h; cases h
      · simp only [Bool.not_eq_true] at hany
        rw [hany] at h
        simp only [Bool.false_eq_true, if_false] at h
        cases h
        rfl

theorem list_media_ok (fs : Node) (root : List String) (path : String)
    (media_type : Option String) (l : MediaListing)
    (h : list_media fs root path media_type = Except.ok l) :
    ∃ cs, lookup (resolveSegs (pyJoinOpt root path)) fs = some (Node.dir cs)
      ∧ l.images = (sortByName cs).filterMap
          (mediaEntryOf root (pyJoinOpt root path) media_type "images")
      ∧ l.videos = (sortByName cs).filterMap
          (mediaEntryOf root (pyJoinOpt root path) media_type "videos") := by
  simp only [list_media] at h
  cases hlk : lookup (resolveSegs (pyJoinOpt root path)) fs with
  | none => rw [hlk] at h; cases h
  | some target =>
    rw [hlk] at h
    cases target with
    | file => simp [isDirNode] at h
    | badDir e =>
      simp only [isDirNode, if_true,
        show enumChildren (Node.badDir e) = Except.error e from rfl] at h
      cases h
    | dir cs =>
      refine ⟨cs, rfl, ?_⟩
      simp only [isDirNode, if_true,
        show enumChildren (Node.dir cs) = Except.ok cs from rfl,
        mediaLoop_eq] at h
      cases h
      exact ⟨rfl, rfl⟩

theorem isIoBad_false_of_not_badDir {p : String × Node}
    (h : isBadDir p.2 = false) : isIoBad p.2 = false := by
  cases hp : p.2 with
  | file => rfl
  | dir sub => rfl
  | badDir e => rw [hp] at h; cases h

/-- C4: on an existing directory whose subdirectories are all readable,
the listing reports each immediate subdirectory (in sorted order) with
the image/video counts of the classifiable files directly inside it —
`dirEntryOf` counts `sub.countP` over the direct children only, one
level deep with no recursion — and the listing's own counts tally
exactly the classifiable files directly inside the requested directory
(`cs.countP`). -/
theorem list_directories_counts_one_level (fs : Node) (root : List String)
    (path : String) (cs : List (String × Node))
    (h : lookup (resolveSegs (pyJoinOpt root path)) fs = some (Node.dir cs))
    (hok : ∀ p ∈ cs, isBadDir p.2 = false) :
    list_directories fs root path = Except.ok
      { path := path
        directories :=
          (sortByName cs).filterMap (dirEntryOf root (pyJoinOpt root path))
        image_count := cs.countP isImgFile
        video_count := cs.countP isVidFile } := by
  rw [list_directories_eq fs root path cs h]
  have hany : cs.any (fun p => isIoBad p.2) = false := by
    rw [List.any_eq_false]
    intro p hp
    rw [isIoBad_false_of_not_badDir (hok p hp)]
    simp
  rw [hany]
  simp

/-- C4 witness: the spec §8 example — a subdirectory `A` with two jpgs
and one mp4, plus a top-level file `b.png`, listed from the root. -/
theorem list_directories_counts_one_level_witness :
    list_directories fsExample [] "" = Except.ok
      { path := ""
        directories :=
          [{ name := "A", path := "A", image_count := 2, video_count := 1 }]
        image_count := 1, video_count := 0 } := by
  have h := list_directories_counts_one_level fsExample [] "" csExample rfl
    (by decide)
  rw [h]
  rfl

/-- C5: if one subdirectory's inner enumeration raises a permission
error, the listing still succeeds and reports that subdirectory with
zero counts; if the inner enumeration fails with any other error, the
whole request fails (the outer handler maps the uncaught exception to a
500 server error) instead of being silently treated as zero. -/
theorem permission_swallowed_other_propagates :
    (∀ (fs : Node) (root : List String) (path : String)
        (cs : List (String × Node)) (name : String),
      lookup (resolveSegs (pyJoinOpt root path)) fs = some (Node.dir cs) →
      (name, Node.badDir EnumErr.permission) ∈ cs →
      (∀ p ∈ cs, isIoBad p.2 = false) →
      ∃ l, list_directories fs root path = Except.ok l
        ∧ ({ name := name
             path := relative_to_media_root root (pyJoinOpt root path ++ [name])
             image_count := 0, video_count := 0 } : DirEntry) ∈ l.directories)
    ∧ (∀ (fs : Node) (root : List String) (path : String)
        (cs : List (String × Node)) (name : String),
      lookup (resolveSegs (pyJoinOpt root path)) fs = some (Node.dir cs) →
      (name, Node.badDir EnumErr.ioError) ∈ cs →
      list_directories fs root path = Except.error ApiErr.serverError) := by
  constructor
  · intro fs root path cs name h hmem hno
    rw [list_directories_eq fs root path cs h]
    have hany : cs.any (fun p => isIoBad p.2) = false := by
      rw [List.any_eq_false]
      intro p hp
      rw [hno p hp]
      simp
    rw [hany]
    simp only [Bool.false_eq_true, if_false]
    refine ⟨_, rfl, ?_⟩
    apply List.mem_filterMap.mpr
    exact ⟨(name, Node.badDir EnumErr.permission),
      (sortByName_perm cs).mem_iff.mpr hmem, rfl⟩
  · intro fs root path cs name h hmem
    rw [list_directories_eq fs root path cs h]
    have hany : cs.any (fun p => isIoBad p.2) = true :=
      List.any_eq_true.mpr ⟨(name, Node.badDir EnumErr.ioError), hmem, rfl⟩
    rw [hany]
    simp

/-- C5 witness: a root with an unreadable (permission) subdirectory
still lists successfully with zero counts for it, while a subdirectory
failing with a non-permission I/O error turns the whole request into a
500. -/
theorem permission_swallowed_other_propagates_witness :
    (∃ l, list_directories fsPerm [] "" = Except.ok l
      ∧ ({ name := "locked", path := "locked"
           image_count := 0, video_count := 0 } : DirEntry) ∈ l.directories)
    ∧ list_directories fsIo [] "" = Except.error ApiErr.serverError := by
  constructor
  · exact permission_swallowed_other_propagates.1 fsPerm [] "" csPerm "locked"
      rfl (List.Mem.tail _ (List.Mem.head _)) (by decide)
  · exact permission_swallowed_other_propagates.2 fsIo [] "" csIo "broken"
      rfl (List.Mem.tail _ (List.Mem.head _))

/-- C6: with a type filter, only the matching category is populated and
the other sequence is empty — for `media_type=images` the images are
exactly the (sorted) image files of the directory and `videos = []`
even if video files exist, and symmetrically for `media_type=videos`. -/
theorem media_filter_excludes_other (fs : Node) (root : List String)
    (path : String) (cs : List (String × Node))
    (h : lookup (resolveSegs (pyJoinOpt root path)) fs = some (Node.dir cs)) :
    list_media fs root path (some "images")
      = Except.ok
          { path := path
            images := (sortByName cs).filterMap (fun p =>
              if isImgFile p then
                some { name := p.1
                       path := relative_to_media_root root
                         (pyJoinOpt root path ++ [p.1]) }
              else none)
            videos := [] }
    ∧ list_media fs root path (some "videos")
      = Except.ok
          { path := path
            images := []
            videos := (sortByName cs).filterMap (fun p =>
              if isVidFile p then
                some { name := p.1
                       path := relative_to_media_root root
                         (pyJoinOpt root path ++ [p.1]) }
              else none) } := by
  constructor
  · rw [list_media_eq fs root path (some "images") cs h]
    have h1 : (sortByName cs).filterMap
          (mediaEntryOf root (pyJoinOpt root path) (some "images") "images")
        = (sortByName cs).filterMap (fun p =>
            if isImgFile p then
              some { name := p.1
                     path := relative_to_media_root root
                       (pyJoinOpt root path ++ [p.1]) }
            else none) := by
      apply List.filterMap_congr
      intro p _
      cases hm : is_media_file p.1 (some "images") with
      | true =>
        have hg := (is_media_file_images_iff p.1).mp hm
        simp [mediaEntryOf, isImgFile, hm, hg]
      | false =>
        have hg : ¬ get_media_type p.1 = some "images" := fun hg => by
          rw [(is_media_file_images_iff p.1).mpr hg] at hm
          cases hm
        simp [mediaEntryOf, isImgFile, hm, hg]
    have h2 : (sortByName cs).filterMap
          (mediaEntryOf root (pyJoinOpt root path) (some "images") "videos")
        = [] := by
      rw [List.filterMap_eq_nil_iff]
      intro p _
      cases hm : is_media_file p.1 (some "images") with
      | true =>
        have hg := (is_media_file_images_iff p.1).mp hm
        simp [mediaEntryOf, hm, hg]
      | false => simp [mediaEntryOf, hm]
    rw [h1, h2]
  · rw [list_media_eq fs root path (some "videos") cs h]
    have h1 : (sortByName cs).filterMap
          (mediaEntryOf root (pyJoinOpt root path) (some "videos") "images")
        = [] := by
      rw [List.filterMap_eq_nil_iff]
      intro p _
      cases hm : is_media_file p.1 (some "videos") with
      | true =>
        have hg := (is_media_file_videos_iff p.1).mp hm
        simp [mediaEntryOf, hm, hg]
      | false => simp [mediaEntryOf, hm]
    have h2 : (sortByName cs).filterMap
          (mediaEntryOf root (pyJoinOpt root path) (some "videos") "videos")
        = (sortByName cs).filterMap (fun p =>
            if isVidFile p then
              some { name := p.1
                     path := relative_to_media_root root
                       (pyJoinOpt root path ++ [p.1]) }
            else none) := by
      apply List.filterMap_congr
      intro p _
      cases hm : is_media_file p.1 (some "videos") with
      | true =>
        have hg := (is_media_file_videos_iff p.1).mp hm
        simp [mediaEntryOf, isVidFile, hm, hg]
      | false =>
        have hg : ¬ get_media_type p.1 = some "videos" := fun hg => by
          rw [(is_media_file_videos_iff p.1).mpr hg] at hm
          cases hm
        simp [mediaEntryOf, isVidFile, hm, hg]
    rw [h1, h2]

/-- C6 witness: on a directory containing `a.png` and `b.mp4`, the
images filter returns only `a.png` with `videos = []` although `b.mp4`
exists, and the videos filter returns only `b.mp4` with `images = []`. -/
theorem media_filter_excludes_other_witness :
    list_media fsMedia [] "" (some "images")
      = Except.ok
          { path := ""
            images := [{ name := "a.png", path := "a.png" }]
            videos := [] }
    ∧ list_media fsMedia [] "" (some "videos")
      = Except.ok
          { path := ""
            images := []
            videos := [{ name := "b.mp4", path := "b.mp4" }] } := by
  have h := media_filter_excludes_other fsMedia [] "" csMedia rfl
  exact ⟨h.1.trans (by rfl), h.2.trans (by rfl)⟩

theorem contentTypeOf_unknown (e : String)
    (h : e ∉ CONTENT_TYPES.map Prod.fst) :
    contentTypeOf e = "application/octet-stream" := by
  simp only [CONTENT_TYPES, List.map, List.mem_cons, List.not_mem_nil,
    or_false, not_or] at h
  obtain ⟨h1, h2, h3, h4, h5, h6, h7, h8, h9, h10⟩ := h
  simp [contentTypeOf, CONTENT_TYPES, List.lookup,
    beq_eq_false_iff_ne.mpr h1, beq_eq_false_iff_ne.mpr h2,
    beq_eq_false_iff_ne.mpr h3, beq_eq_false_iff_ne.mpr h4,
    beq_eq_false_iff_ne.mpr h5, beq_eq_false_iff_ne.mpr h6,
    beq_eq_false_iff_ne.mpr h7, beq_eq_false_iff_ne.mpr h8,
    beq_eq_false_iff_ne.mpr h9, beq_eq_false_iff_ne.mpr h10]

/-- C7: serving a file maps the request extension through the fixed
table (jpg/jpeg to image/jpeg, png to image/png, gif to image/gif,
webp to image/webp, mp4 to video/mp4, mov to video/quicktime, avi to
video/x-msvideo, mkv to video/x-matroska, webm to video/webm) and any
unknown extension to application/octet-stream; under a passing
containment check, a nonexistent path yields 404 and an existing
non-regular-file path yields 400. -/
theorem serve_media_content_types :
    (∀ (fs : Node) (root : List String) (fp : String),
      strStartsWith (pathStr (resolveSegs (pyJoin root fp)))
          (pathStr (resolveSegs root)) = true →
      (lookup (resolveSegs (pyJoin root fp)) fs = none →
        serve_media fs root fp = Except.error ApiErr.notFound)
      ∧ (∀ n, lookup (resolveSegs (pyJoin root fp)) fs = some n →
          isFileNode n = false →
          serve_media fs root fp = Except.error ApiErr.badRequest)
      ∧ (∀ n, lookup (resolveSegs (pyJoin root fp)) fs = some n →
          isFileNode n = true →
          serve_media fs root fp
            = Except.ok (contentTypeOf (String.mk (pyExt fp)))))
    ∧ contentTypeOf "jpg" = "image/jpeg"
    ∧ contentTypeOf "jpeg" = "image/jpeg"
    ∧ contentTypeOf "png" = "image/png"
    ∧ contentTypeOf "gif" = "image/gif"
    ∧ contentTypeOf "webp" = "image/webp"
    ∧ contentTypeOf "mp4" = "video/mp4"
    ∧ contentTypeOf "mov" = "video/quicktime"
    ∧ contentTypeOf "avi" = "video/x-msvideo"
    ∧ contentTypeOf "mkv" = "video/x-matroska"
    ∧ contentTypeOf "webm" = "video/webm"
    ∧ (∀ e : String, e ∉ CONTENT_TYPES.map Prod.fst →
        contentTypeOf e = "application/octet-stream") := by
  refine ⟨?_, rfl, rfl, rfl, rfl, rfl, rfl, rfl, rfl, rfl, rfl,
    contentTypeOf_unknown⟩
  intro fs root fp hchk
  refine ⟨?_, ?_, ?_⟩
  · intro hlk
    simp only [serve_media, if_neg (not_not_intro hchk)]
    rw [hlk]
  · intro n hlk hnf
    simp only [serve_media, if_neg (not_not_intro hchk)]
    rw [hlk]
    simp [hnf]
  · intro n hlk hf
    simp only [serve_media, if_neg (not_not_intro hchk)]
    rw [hlk]
    simp [hf]

/-- C7 witness: the handler clauses applied on a concrete tree — a webm
file serves as video/webm, a missing path yields 404, a directory path
yields 400, and an unknown extension maps to the generic binary type. -/
theorem serve_media_content_types_witness :
    serve_media (Node.dir [("v.webm", Node.file)]) [] "v.webm"
      = Except.ok "video/webm"
    ∧ serve_media fsMedia [] "missing.png" = Except.error ApiErr.notFound
    ∧ serve_media fsMedia [] "sub" = Except.error ApiErr.badRequest
    ∧ contentTypeOf "xyz" = "application/octet-stream" := by
  refine ⟨?_, ?_, ?_, ?_⟩
  · have h := ((serve_media_content_types.1
      (Node.dir [("v.webm", Node.file)]) [] "v.webm" (by decide)).2.2
      Node.file rfl rfl)
    rw [h]
    rfl
  · exact (serve_media_content_types.1 fsMedia [] "missing.png"
      (by decide)).1 rfl
  · exact ((serve_media_content_types.1 fsMedia [] "sub"
      (by decide)).2.1 (Node.dir []) rfl rfl)
  · exact serve_media_content_types.2.2.2.2.2.2.2.2.2.2.2 "xyz" (by decide)

theorem dirEntryOf_name {root tt : List String} {p : String × Node}
    {d : DirEntry} (h : dirEntryOf root tt p = some d) : d.name = p.1 := by
  cases hp : p.2 with
  | file => simp [dirEntryOf, hp] at h
  | dir sub =>
    simp only [dirEntryOf, hp] at h
    cases h
    rfl
  | badDir e =>
    simp only [dirEntryOf, hp] at h
    cases h
    rfl

theorem mediaEntryOf_name {root tt : List String} {mt : Option String}
    {w : String} {p : String × Node} {d : MediaEntry}
    (h : mediaEntryOf root tt mt w p = some d) : d.name = p.1 := by
  simp only [mediaEntryOf] at h
  by_cases hc : (isFileNode p.2 && is_media_file p.1 mt
      && (get_media_type p.1 == some w)) = true
  · rw [if_pos hc] at h
    cases h
    rfl
  · rw [if_neg hc] at h
    cases h

theorem slideEntryOf_name {root tt : List String} {mt : String}
    {p : String × Node} {d : MediaEntry}
    (h : slideEntryOf root tt mt p = some d) : d.name = p.1 := by
  simp only [slideEntryOf] at h
  by_cases hc : (isFileNode p.2 && is_media_file p.1 (some mt)) = true
  · rw [if_pos hc] at h
    cases h
    rfl
  · rw [if_neg hc] at h
    cases h

theorem sorted_names_filterMap_dir (root tt : List String)
    (cs : List (String × Node)) :
    (((sortByName cs).filterMap (dirEntryOf root tt)).map
      DirEntry.name).Sorted (· ≤ ·) := by
  rw [List.Sorted, List.pairwise_map]
  apply List.Pairwise.filterMap (dirEntryOf root tt)
    (fun p q hpq d hd e he => ?_) (sortByName_pairwise cs)
  rw [dirEntryOf_name hd, dirEntryOf_name he]
  exact hpq

theorem sorted_names_filterMap_media (root tt : List String)
    (mt : Option String) (w : String) (cs : List (String × Node)) :
    (((sortByName cs).filterMap (mediaEntryOf root tt mt w)).map
      MediaEntry.name).Sorted (· ≤ ·) := by
  rw [List.Sorted, List.pairwise_map]
  apply List.Pairwise.filterMap (mediaEntryOf root tt mt w)
    (fun p q hpq d hd e he => ?_) (sortByName_pairwise cs)
  rw [mediaEntryOf_name hd, mediaEntryOf_name he]
  exact hpq

/-- C8: responses are deterministic functions of the filesystem and the
request (in this pure embedding two identical requests literally denote
the same value, so idempotence is definitional), every ordered sequence
in a successful response is sorted by name (lexicographic on code
points, duplicates kept stably), and the slideshow with
`randomize = false` does not depend on the shuffle oracle — randomize
being the only place the random source enters a response. -/
theorem responses_sorted_deterministic :
    ∀ (fs : Node) (root : List String) (path : String),
    (∀ l : DirListing, list_directories fs root path = Except.ok l →
      (l.directories.map DirEntry.name).Sorted (· ≤ ·))
    ∧ (∀ (mt : Option String) (l : MediaListing),
        list_media fs root path mt = Except.ok l →
        (l.images.map MediaEntry.name).Sorted (· ≤ ·)
        ∧ (l.videos.map MediaEntry.name).Sorted (· ≤ ·))
    ∧ (∀ (sh1 sh2 : List MediaEntry → List MediaEntry) (mt : String),
        generate_slideshow_html fs root sh1 mt path false
          = generate_slideshow_html fs root sh2 mt path false)
    ∧ (∀ (sh : List MediaEntry → List MediaEntry) (mt : String)
        (files : List MediaEntry),
        generate_slideshow_html fs root sh mt path false
          = SlidePage.mediaPage files →
        (files.map MediaEntry.name).Sorted (· ≤ ·)) := by
  intro fs root path
  refine ⟨?_, ?_, ?_, ?_⟩
  · intro l h
    obtain ⟨cs, _, hdirs⟩ := list_directories_ok fs root path l h
    rw [hdirs]
    exact sorted_names_filterMap_dir root (pyJoinOpt root path) cs
  · intro mt l h
    obtain ⟨cs, _, himgs, hvids⟩ := list_media_ok fs root path mt l h
    rw [himgs, hvids]
    exact ⟨sorted_names_filterMap_media root (pyJoinOpt root path) mt "images" cs,
      sorted_names_filterMap_media root (pyJoinOpt root path) mt "videos" cs⟩
  · intro sh1 sh2 mt
    simp only [generate_slideshow_html]
    cases hlk : lookup (resolveSegs (pyJoinOpt root path)) fs with
    | none => rfl
    | some target =>
      cases target with
      | file => rfl
      | badDir e => rfl
      | dir cs => rfl
  · intro sh mt files h
    simp only [generate_slideshow_html] at h
    cases hlk : lookup (resolveSegs (pyJoinOpt root path)) fs with
    | none => rw [hlk] at h; cases h
    | some target =>
      rw [hlk] at h
      cases target with
      | file => simp only [enumChildren] at h; cases h
      | badDir e => simp only [enumChildren] at h; cases h
      | dir cs =>
        simp only [enumChildren, Bool.false_eq_true, if_false] at h
        cases h
        rw [slideLoop_eq, List.Sorted, List.pairwise_map]
        apply List.Pairwise.filterMap
          (slideEntryOf root (pyJoinOpt root path) mt)
          (fun p q hpq d hd e he => ?_) (sortByName_pairwise cs)
        rw [slideEntryOf_name hd, slideEntryOf_name he]
        exact hpq

/-- C8 witness: the sortedness and oracle-independence clauses applied
to a concrete tree and request. -/
theorem responses_sorted_deterministic_witness :
    ((({ path := ""
         directories :=
           [{ name := "sub", path := "sub", image_count := 0, video_count := 0 }]
         image_count := 1, video_count := 1 }
        : DirListing).directories.map DirEntry.name).Sorted (· ≤ ·))
    ∧ generate_slideshow_html fsMedia [] (fun _ => []) "images" "" false
        = generate_slideshow_html fsMedia [] id "images" "" false := by
  constructor
  · exact (responses_sorted_deterministic fsMedia [] "").1
      { path := ""
        directories :=
          [{ name := "sub", path := "sub", image_count := 0, video_count := 0 }]
        image_count := 1, video_count := 1 }
      (by rfl)
  · exact (responses_sorted_deterministic fsMedia [] "").2.2.1
      (fun _ => []) id "images"

/-- C9: for a path that does not exist, the slideshow endpoint does not
fail — it returns a successful page carrying the not-found indication
and an empty media sequence — while a media_type other than images or
videos yields a 404 error. -/
theorem slideshow_missing_dir_soft :
    ∀ (fs : Node) (root : List String)
      (sh : List MediaEntry → List MediaEntry) (path : String)
      (randomize : Bool),
    (lookup (resolveSegs (pyJoinOpt root path)) fs = none →
      slideshow_page fs root sh "images" path randomize
          = Except.ok SlidePage.notFoundPage
      ∧ slideshow_page fs root sh "videos" path randomize
          = Except.ok SlidePage.notFoundPage
      ∧ SlidePage.mediaOf SlidePage.notFoundPage = [])
    ∧ (∀ mt : String, ¬ mt = "images" → ¬ mt = "videos" →
        slideshow_page fs root sh mt path randomize
          = Except.error ApiErr.notFound) := by
  intro fs root sh path randomize
  constructor
  · intro hlk
    refine ⟨?_, ?_, rfl⟩
    · simp only [slideshow_page, generate_slideshow_html]
      rw [hlk]
      simp
    · simp only [slideshow_page, generate_slideshow_html]
      rw [hlk]
      simp
  · intro mt h1 h2
    simp only [slideshow_page]
    rw [if_neg (by
      intro hor
      cases hor with
      | inl h => exact h1 h
      | inr h => exact h2 h)]

/-- C9 witness: a nonexistent path yields the successful not-found page
with no media, and a bad media_type yields 404, on a concrete tree. -/
theorem slideshow_missing_dir_soft_witness :
    slideshow_page fsMedia [] id "images" "nope" false
        = Except.ok SlidePage.notFoundPage
    ∧ SlidePage.mediaOf SlidePage.notFoundPage = []
    ∧ slideshow_page fsMedia [] id "bogus" "" true
        = Except.error ApiErr.notFound := by
  have h := slideshow_missing_dir_soft fsMedia [] id "nope" false
  exact ⟨(h.1 rfl).1, (h.1 rfl).2.2,
    (slideshow_missing_dir_soft fsMedia [] id "" true).2 "bogus"
      (by decide) (by decide)⟩

/-- C10 counterexample: with root `/media` and the client path
`../secret`, the media listing succeeds and reports the entry
`/media/../secret/s.png`, whose canonical location `/secret/s.png` is
not under the root; yet its reported path field is the root-relative
string `../secret/s.png`, not the absolute server path, refuting the
claim that entries not under the root always expose their absolute
path. -/
theorem relative_path_outside_root_cex :
    relative_to_media_root ["media"] ["media", "..", "secret", "s.png"]
        = "../secret/s.png"
    ∧ ¬ (["media"] <+: resolveSegs ["media", "..", "secret", "s.png"])
    ∧ ¬ relative_to_media_root ["media"] ["media", "..", "secret", "s.png"]
        = pathStr ["media", "..", "secret", "s.png"]
    ∧ list_media fsSecret ["media"] "../secret" none
        = Except.ok
            { path := "../secret"
              images := [{ name := "s.png", path := "../secret/s.png" }]
              videos := [] } := by
  refine ⟨rfl, by decide, by decide, rfl⟩

/-- C10 (amended): relative_to_media_root is total; it returns the
path's absolute string form unchanged exactly when the path's segments
do not lexically extend the root's segments (Python `relative_to` is a
purely lexical prefix test on unnormalized segments), and otherwise it
returns the textual remainder — which for an unnormalized path
containing `..` can be a root-relative string even though the entry
lies outside the root. -/
theorem relative_to_media_root_total :
    ∀ root p : List String,
    (¬ root <+: p → relative_to_media_root root p = pathStr p)
    ∧ (root <+: p →
        relative_to_media_root root p
          = (if p.drop root.length = [] then "."
             else String.intercalate "/" (p.drop root.length))) := by
  intro root p
  constructor
  · intro h
    have hb : ¬ (root.isPrefixOf p = true) := by
      rw [List.isPrefixOf_iff_prefix]
      exact h
    simp only [relative_to_media_root]
    rw [if_neg hb]
  · intro h
    have hb : root.isPrefixOf p = true := by
      rw [List.isPrefixOf_iff_prefix]
      exact h
    simp only [relative_to_media_root]
    rw [if_pos hb]

/-- C10 witness: the amended behavior at concrete inputs — a path not
extending the root comes back as its absolute string, one extending it
comes back as the textual remainder. -/
theorem relative_to_media_root_total_witness :
    relative_to_media_root ["media"] ["etc", "passwd"] = "/etc/passwd"
    ∧ relative_to_media_root ["media"] ["media", "x"] = "x" := by
  constructor
  · rw [(relative_to_media_root_total ["media"] ["etc", "passwd"]).1
      (by decide)]
    rfl
  · rw [(relative_to_media_root_total ["media"] ["media", "x"]).2
      (by decide)]
    rfl

end KiloMedia
